import Mathlib

/-!
# Verification of the dfdx gradient-tape subsystem

Shallow embedding of the reverse-mode automatic-differentiation core of the
`dfdx` repository: the record-based binary operations of
`src/tensor/impl_binary_ops.rs`, the closure-based broadcast-outer add of
`src/tensor_ops/arith_broadcast_outer.rs`, and the `.npy` reader of
`src/numpy/load.rs`.  Numeric values are modelled as exact rationals (`ℚ`),
buffers as flat row-major lists paired with a shape.  Parts of the repository
that are referenced but whose source is not in the excerpt (the
`GradientTape` internals, the `Gradients` map, `mean`, and the backward
drivers) are modelled from the specification and marked as such.
-/

namespace Dfdx

/-- An exact fraction: the real-number semantics standing in for the `f32`
values of the code.  A plain executable structure (numerator, positive
denominator) is used so that every concrete computation reduces in the
kernel. -/
structure Frac where
  num : Int
  den : Nat
deriving DecidableEq, Repr

/-- Reduce a fraction to lowest terms (the divisions are exact). -/
def Frac.norm (f : Frac) : Frac :=
  let g := Nat.gcd f.num.natAbs f.den
  if g = 0 then f else ⟨f.num / (g : Int), f.den / g⟩

/-- Fraction addition, normalized. -/
def Frac.add (a b : Frac) : Frac :=
  Frac.norm ⟨a.num * b.den + b.num * a.den, a.den * b.den⟩

/-- Fraction negation. -/
def Frac.neg (a : Frac) : Frac := ⟨-a.num, a.den⟩

/-- Fraction subtraction, normalized. -/
def Frac.sub (a b : Frac) : Frac := a.add b.neg

/-- Fraction multiplication, normalized. -/
def Frac.mul (a b : Frac) : Frac :=
  Frac.norm ⟨a.num * b.num, a.den * b.den⟩

/-- Fraction reciprocal (junk on zero, which the code never divides by). -/
def Frac.inv (a : Frac) : Frac := ⟨a.num.sign * a.den, a.num.natAbs⟩

/-- Fraction division, normalized. -/
def Frac.div (a b : Frac) : Frac := a.mul b.inv

instance : Zero Frac := ⟨⟨0, 1⟩⟩
instance : One Frac := ⟨⟨1, 1⟩⟩
instance : Add Frac := ⟨Frac.add⟩
instance : Neg Frac := ⟨Frac.neg⟩
instance : Sub Frac := ⟨Frac.sub⟩
instance : Mul Frac := ⟨Frac.mul⟩
instance : Div Frac := ⟨Frac.div⟩
instance : NatCast Frac := ⟨fun n => ⟨n, 1⟩⟩
instance (n : Nat) : OfNat Frac n := ⟨⟨n, 1⟩⟩

/-- Sum of a list of fractions. -/
def fsum (l : List Frac) : Frac := l.foldr Frac.add 0

/-- Scalar values: exact fractions standing for the `f32` values of the code. -/
abbrev Val := Frac

/-- A shaped buffer: per-axis extents plus a flat row-major data list
(the embedding of `ndarray::Array` / nested fixed-size arrays). -/
structure NdArray where
  shape : List Nat
  data : List Val
deriving DecidableEq, Repr

/-- `Array::from_elem(shape, v)`: a buffer of the given shape filled with `v`. -/
def NdArray.fromElem (s : List Nat) (v : Val) : NdArray :=
  ⟨s, List.replicate s.prod v⟩

/-- An all-zero buffer of the given shape. -/
def NdArray.zeros (s : List Nat) : NdArray :=
  NdArray.fromElem s 0

/-- Elementwise combination of two same-shaped buffers (`ndarray`'s
elementwise `+`, `-`, `*`; shape equality is a typing invariant upstream). -/
def NdArray.zipWith (f : Val → Val → Val) (a b : NdArray) : NdArray :=
  ⟨a.shape, List.zipWith f a.data b.data⟩

/-- Row-major 2D matrix product: `a` is `M×N`, `b` is `N×O`, result `M×O`
(the embedding of `ndarray`'s `dot`). -/
def dot2d (M N O : Nat) (a b : List Val) : List Val :=
  (List.range (M * O)).map fun k =>
    fsum ((List.range N).map fun j =>
      a.getD (k / O * N + j) 0 * b.getD (j * O + k % O) 0)

/-- Data of `lhs + rhs` where `lhs` is `M×N` and `rhs` is length-`N`,
`rhs` broadcast across the leading axis (`ndarray`'s broadcasting `+`). -/
def broadcastAddData (M N : Nat) (l r : List Val) : List Val :=
  (List.range (M * N)).map fun k => l.getD k 0 + r.getD (k % N) 0

/-- Column sums of an `M×N` buffer: the sum of the upstream gradient across
the replicated leading axis. -/
def sumAxis0 (M N : Nat) (d : List Val) : List Val :=
  (List.range N).map fun j =>
    fsum ((List.range M).map fun i => d.getD (i * N + j) 0)

/-! ## The record-based gradient tape (`impl_binary_ops.rs` world)

`GradientTape`, `Operation`, `BinaryOp` and `OpType` live in the repository's
`gradients` module, which is not part of the excerpt; they are modelled from
the specification (§3 Operation Record, §4.2 Tape). -/

/-- Modelled from the spec: the operation kind stored in a record
(`crate::gradients::OpType`), used only for bookkeeping. -/
inductive OpType where
  | Normal : OpType
  | MatMul (m n o : Nat) : OpType
  | Broadcast : OpType
deriving DecidableEq, Repr

/-- Modelled from the spec: a gradient-slot reference, "identifier + shape,
used to look up or lazily create the accumulated-gradient buffer". -/
structure GradientRef where
  id : Nat
  shape : List Nat
deriving DecidableEq, Repr

/-- Modelled from the spec: a binary Operation Record — operation kind, one
gradient-slot reference per parent, one stored-derivative index per parent,
and the result's gradient-slot reference (`crate::gradients::BinaryOp`). -/
structure BinaryOp where
  op_type : OpType
  parent_grads : GradientRef × GradientRef
  parent_derivs : Nat × Nat
  result_grad : GradientRef
deriving DecidableEq, Repr

/-- Modelled from the spec: a unary Operation Record (one parent). -/
structure UnaryOp where
  op_type : OpType
  parent_grad : GradientRef
  parent_deriv : Nat
  result_grad : GradientRef
deriving DecidableEq, Repr

/-- Modelled from the spec: an Operation Record is a tagged variant, Unary or
Binary (`crate::gradients::Operation`). -/
inductive Operation where
  | Unary (op : UnaryOp) : Operation
  | Binary (op : BinaryOp) : Operation
deriving DecidableEq, Repr

/-- Modelled from the spec: the Tape — an append-only ordered log of
Operation Records plus a side table of stored derivative buffers
(`crate::gradients::GradientTape`). -/
structure GradientTape where
  operations : List Operation
  derivatives : List NdArray
deriving DecidableEq, Repr

/-- Modelled from the spec: `gradient_ref_for(id, shape)` hands back the
gradient-slot reference for an identifier (slot creation is lazy, at
backward time). -/
def GradientTape.gradient_ref_for (_tape : GradientTape) (id : Nat)
    (shape : List Nat) : GradientRef :=
  ⟨id, shape⟩

/-- Modelled from the spec: `store_derivative` appends a derivative buffer to
the side table and returns its index. -/
def GradientTape.store_derivative (tape : GradientTape) (d : NdArray) :
    GradientTape × Nat :=
  (⟨tape.operations, tape.derivatives ++ [d]⟩, tape.derivatives.length)

/-- Modelled from the spec: `add_operation` appends an Operation Record; "no
operation ever removes or mutates an existing record". -/
def GradientTape.add_operation (tape : GradientTape) (op : Operation) :
    GradientTape :=
  ⟨tape.operations ++ [op], tape.derivatives⟩

/-- The tape manager of a tensor: either the tape-less marker `NoTape` or the
exclusive holder of the one live tape (the closed set of `TapeManager` impls). -/
inductive TapeHolder where
  | noTape : TapeHolder
  | withTape (tape : GradientTape) : TapeHolder
deriving DecidableEq, Repr

/-- `TapeManager::update_with`: apply a tape update if a tape is held,
otherwise do nothing (the `NoTape` impl is a no-op). -/
def TapeHolder.update_with (m : TapeHolder) (f : GradientTape → GradientTape) :
    TapeHolder :=
  match m with
  | .noTape => .noTape
  | .withTape t => .withTape (f t)

/-- Whether this manager currently owns a tape. -/
def TapeHolder.owns : TapeHolder → Bool
  | .noTape => false
  | .withTape _ => true

/-- A tensor whose tape-manager type parameter is fixed to `NoTape`: unique
identifier plus data, with no place to hold a tape. -/
structure NoTapeTensor where
  id : Nat
  data : NdArray
deriving DecidableEq, Repr

/-- The tape manager a `NoTapeTensor` carries: by construction always the
tape-less marker. -/
def NoTapeTensor.holder (_t : NoTapeTensor) : TapeHolder :=
  .noTape

/-- A tensor generic over its tape manager: unique identifier, data, and the
tape manager it currently carries. -/
structure Tensor where
  id : Nat
  data : NdArray
  holder : TapeHolder
deriving DecidableEq, Repr

/-- `split_tape_manager`: detach the tape manager, leaving a `NoTape` tensor
with the same identifier and data. -/
def Tensor.split_tape_manager (t : Tensor) : NoTapeTensor × TapeHolder :=
  (⟨t.id, t.data⟩, t.holder)

/-- `with_tape_manager`: attach a tape manager to a `NoTape` tensor. -/
def NoTapeTensor.with_tape_manager (t : NoTapeTensor) (m : TapeHolder) :
    Tensor :=
  ⟨t.id, t.data, m⟩

/-- `binary_op` of `impl_binary_ops.rs`: register gradient refs for both
parents and the result, store both local derivatives, and append one binary
Operation Record. -/
def binary_op (tape : GradientTape) (op_type : OpType)
    (lhsId : Nat) (lhsShape : List Nat) (rhsId : Nat) (rhsShape : List Nat)
    (outId : Nat) (outShape : List Nat)
    (lhs_deriv rhs_deriv : NdArray) : GradientTape :=
  let parent_grads :=
    (tape.gradient_ref_for lhsId lhsShape, tape.gradient_ref_for rhsId rhsShape)
  let sd1 := tape.store_derivative lhs_deriv
  let sd2 := sd1.1.store_derivative rhs_deriv
  let parent_derivs := (sd1.2, sd2.2)
  let result_grad := tape.gradient_ref_for outId outShape
  sd2.1.add_operation (.Binary ⟨op_type, parent_grads, parent_derivs, result_grad⟩)

/-- `matmat_mul`: forward 2D×2D matrix product; records the local derivatives
in swapped order (`rhs.data` for the lhs slot, `lhs.data` for the rhs slot).
`fresh` is the identifier the Identity Allocator hands the result. -/
def matmat_mul (M N O fresh : Nat) (lhs : Tensor) (rhs : NoTapeTensor) :
    Tensor :=
  let result : NoTapeTensor :=
    ⟨fresh, ⟨[M, O], dot2d M N O lhs.data.data rhs.data.data⟩⟩
  let st := lhs.split_tape_manager
  let lhs' := st.1
  let mgr := st.2.update_with fun tape =>
    binary_op tape (.MatMul M N O)
      lhs'.id lhs'.data.shape rhs.id rhs.data.shape
      result.id result.data.shape
      rhs.data lhs'.data
  result.with_tape_manager mgr

/-- `vecmat_mul`: forward 1D×2D product; records the local derivatives in
swapped order, with `m = 1` in the recorded `MatMul` kind. -/
def vecmat_mul (N O fresh : Nat) (lhs : Tensor) (rhs : NoTapeTensor) :
    Tensor :=
  let result : NoTapeTensor :=
    ⟨fresh, ⟨[O], dot2d 1 N O lhs.data.data rhs.data.data⟩⟩
  let st := lhs.split_tape_manager
  let lhs' := st.1
  let mgr := st.2.update_with fun tape =>
    binary_op tape (.MatMul 1 N O)
      lhs'.id lhs'.data.shape rhs.id rhs.data.shape
      result.id result.data.shape
      rhs.data lhs'.data
  result.with_tape_manager mgr

/-- `broadcast_add`: forward `(M,N) + (N,)` with `rhs` broadcast across the
leading axis; records an all-ones derivative for `lhs` and a `1/M`-filled
derivative for `rhs`. -/
def broadcast_add (M N fresh : Nat) (lhs : Tensor) (rhs : NoTapeTensor) :
    Tensor :=
  let result : NoTapeTensor :=
    ⟨fresh, ⟨[M, N], broadcastAddData M N lhs.data.data rhs.data.data⟩⟩
  let st := lhs.split_tape_manager
  let lhs' := st.1
  let mgr := st.2.update_with fun tape =>
    binary_op tape .Broadcast
      lhs'.id lhs'.data.shape rhs.id rhs.data.shape
      result.id result.data.shape
      (NdArray.fromElem lhs'.data.shape 1)
      (NdArray.fromElem rhs.data.shape (1 / (M : Val)))
  result.with_tape_manager mgr

/-- `add`: elementwise sum where the constant is the LEFT operand and the
tape (if any) comes from the RIGHT operand; both derivatives are all-ones. -/
def add (fresh : Nat) (lhs : NoTapeTensor) (rhs : Tensor) : Tensor :=
  let result : NoTapeTensor :=
    ⟨fresh, NdArray.zipWith (· + ·) lhs.data rhs.data⟩
  let st := rhs.split_tape_manager
  let rhs' := st.1
  let mgr := st.2.update_with fun tape =>
    binary_op tape .Normal
      lhs.id lhs.data.shape rhs'.id rhs'.data.shape
      result.id result.data.shape
      (NdArray.fromElem lhs.data.shape 1)
      (NdArray.fromElem rhs'.data.shape 1)
  result.with_tape_manager mgr

/-- `sub`: elementwise difference; derivatives all-ones for `lhs` and
all-`(-1)` for `rhs`. -/
def sub (fresh : Nat) (lhs : NoTapeTensor) (rhs : Tensor) : Tensor :=
  let result : NoTapeTensor :=
    ⟨fresh, NdArray.zipWith (· - ·) lhs.data rhs.data⟩
  let st := rhs.split_tape_manager
  let rhs' := st.1
  let mgr := st.2.update_with fun tape =>
    binary_op tape .Normal
      lhs.id lhs.data.shape rhs'.id rhs'.data.shape
      result.id result.data.shape
      (NdArray.fromElem lhs.data.shape 1)
      (NdArray.fromElem rhs'.data.shape (-1))
  result.with_tape_manager mgr

/-- `mul`: elementwise product; the derivative recorded for each operand is
the other operand's forward data (product rule), under the `Normal` kind. -/
def mul (fresh : Nat) (lhs : NoTapeTensor) (rhs : Tensor) : Tensor :=
  let result : NoTapeTensor :=
    ⟨fresh, NdArray.zipWith (· * ·) lhs.data rhs.data⟩
  let st := rhs.split_tape_manager
  let rhs' := st.1
  let mgr := st.2.update_with fun tape =>
    binary_op tape .Normal
      lhs.id lhs.data.shape rhs'.id rhs'.data.shape
      result.id result.data.shape
      rhs'.data lhs.data
  result.with_tape_manager mgr

/-! ## The gradient mapping and the backward engines

The `Gradients` map and the backward drivers live in the repository's
`gradients` module, outside the excerpt; they are modelled from the
specification (§4.5 Backward Engine, §6 backward-trigger entry point). -/

/-- Modelled from the spec: the mapping from tensor identifier to
accumulated-gradient buffer, lazily materialized. -/
def Gradients := Nat → Option NdArray

/-- The empty gradient mapping. -/
def Gradients.empty : Gradients := fun _ => none

/-- Modelled from the spec: `ref_gradient` — look up an identifier's
accumulated gradient, "defaulting to all-zero if the tensor never appeared
in the tape". -/
def Gradients.ref (g : Gradients) (id : Nat) (shape : List Nat) : NdArray :=
  (g id).getD (NdArray.zeros shape)

/-- Modelled from the spec: `mut_gradient` + `add_assign` — lazily create a
zero-filled slot of the tensor's shape and add (never overwrite) the
contribution into it. -/
def Gradients.addAssign (g : Gradients) (id : Nat) (shape : List Nat)
    (v : NdArray) : Gradients :=
  fun i => if i = id then some (NdArray.zipWith (· + ·) (g.ref id shape) v) else g i

/-- Whether the mapping holds a materialized entry for an identifier. -/
def Gradients.hasEntry (g : Gradients) (id : Nat) : Bool :=
  (g id).isSome

/-- Modelled from the spec: one parent's backward contribution — "the
elementwise/matrix product of the upstream gradient and that parent's stored
local derivative (using ordinary matrix multiplication when the local
derivative represents a linear map, elementwise multiplication otherwise)";
for a broadcast record the upstream gradient is first summed across the
replicated axis before being written into the lower-rank operand's slot.
`side` is false for the lhs parent and true for the rhs parent. -/
def parentContribution (op_type : OpType) (side : Bool)
    (upstream deriv : NdArray) : NdArray :=
  match op_type with
  | .Normal => NdArray.zipWith (· * ·) upstream deriv
  | .MatMul m n o =>
      if side then
        -- rhs parent: deriv is lhs's data (m×n); contribution derivᵗ·upstream (n×o)
        ⟨[n, o], dot2d n m o
          ((List.range (n * m)).map fun k =>
            deriv.data.getD (k % m * n + k / m) 0)
          upstream.data⟩
      else
        -- lhs parent: deriv is rhs's data (n×o); contribution upstream·derivᵗ (m×n)
        ⟨[m, n], dot2d m o n upstream.data
          ((List.range (o * n)).map fun k =>
            deriv.data.getD (k % n * o + k / n) 0)⟩
  | .Broadcast =>
      if side then
        match upstream.shape with
        | [m, nn] => NdArray.zipWith (· * ·) ⟨deriv.shape, sumAxis0 m nn upstream.data⟩ deriv
        | _ => NdArray.zipWith (· * ·) upstream deriv
      else NdArray.zipWith (· * ·) upstream deriv

/-- Modelled from the spec: process one Operation Record — read the already
accumulated gradient at the result slot and add each parent's contribution
into that parent's gradient slot. -/
def backwardStep (derivs : List NdArray) (g : Gradients) (op : Operation) :
    Gradients :=
  match op with
  | .Unary u =>
      let upstream := g.ref u.result_grad.id u.result_grad.shape
      let d := derivs.getD u.parent_deriv (NdArray.zeros u.parent_grad.shape)
      g.addAssign u.parent_grad.id u.parent_grad.shape
        (parentContribution u.op_type false upstream d)
  | .Binary b =>
      let upstream := g.ref b.result_grad.id b.result_grad.shape
      let d1 := derivs.getD b.parent_derivs.1 (NdArray.zeros b.parent_grads.1.shape)
      let d2 := derivs.getD b.parent_derivs.2 (NdArray.zeros b.parent_grads.2.shape)
      let g := g.addAssign b.parent_grads.1.id b.parent_grads.1.shape
        (parentContribution b.op_type false upstream d1)
      g.addAssign b.parent_grads.2.id b.parent_grads.2.shape
        (parentContribution b.op_type true upstream d2)

/-- Modelled from the spec: the Backward Engine — seed the terminal's
gradient slot with `1.0` and process the tape's records in strict reverse of
recording order. -/
def GradientTape.backward (tape : GradientTape) (terminalId : Nat)
    (terminalShape : List Nat) : Gradients :=
  let g0 := Gradients.empty.addAssign terminalId terminalShape
    (NdArray.fromElem terminalShape 1)
  tape.operations.reverse.foldl (backwardStep tape.derivatives) g0

/-! ## The closure-based tape (`arith_broadcast_outer.rs` world)

The later generation of the code records backward closures instead of
derivative buffers.  This world's `Tape`, `trace`, `mean` and `backward`
are outside the excerpt and modelled from the spec; the broadcast-outer
add and its backward closure are translated from
`src/tensor_ops/arith_broadcast_outer.rs`. -/

/-- A closure-world tensor that owns a tape: identifier, data, and the
ordered list of recorded backward closures (append order; replayed
reversed). -/
structure CTensor where
  id : Nat
  data : NdArray
  tape : List (Gradients → Gradients)

/-- A closure-world tensor with `Tape = NoTape`: identifier and data only. -/
structure CNoTape where
  id : Nat
  data : NdArray
deriving DecidableEq, Repr

/-- Modelled from the spec: `trace()` attaches a fresh empty tape, keeping
identifier and data. -/
def CNoTape.trace (t : CNoTape) : CTensor :=
  ⟨t.id, t.data, []⟩

/-- `bouter_add` of `arith_broadcast_outer.rs`: for each `i < M`, zip-add the
length-`N` row `lhs[i]` with `rhs` — as flat row-major data,
`out[i*N+j] = lhs[i*N+j] + rhs[j]`. -/
def bouter_add (M N : Nat) (lhs rhs : List Val) : List Val :=
  (List.range (M * N)).map fun k => lhs.getD k 0 + rhs.getD (k % N) 0

/-- `add_broadcast_rhs_first`: broadcast the rank-1 `rhs` `M` times and add
it to the rank-2 `lhs`; record a backward closure that copies the result
gradient into the lhs slot and sums it across the leading axis into the rhs
slot, both by `add_assign`. -/
def add_broadcast_rhs_first (M N fresh : Nat) (lhs : CTensor) (rhs : CNoTape) :
    CTensor :=
  let result : CNoTape := ⟨fresh, ⟨[M, N], bouter_add M N lhs.data.data rhs.data.data⟩⟩
  let lhsId := lhs.id
  let rhsId := rhs.id
  let resultId := result.id
  let backOp : Gradients → Gradients := fun grads =>
    let result_grad := grads.ref resultId [M, N]
    -- zip_map_assign writes result_grad over the captured lhs buffer
    let lhsData := result_grad
    let d_grad_rhs : NdArray := ⟨[N], sumAxis0 M N result_grad.data⟩
    let grads := grads.addAssign lhsId [M, N] lhsData
    grads.addAssign rhsId [N] d_grad_rhs
  ⟨result.id, result.data, lhs.tape ++ [backOp]⟩

/-- Modelled from the spec: `mean` — reduce to the scalar average and record
a backward closure distributing `upstream / count` to every input entry. -/
def CTensor.mean (fresh : Nat) (t : CTensor) : CTensor :=
  let inputId := t.id
  let inputShape := t.data.shape
  let count := inputShape.prod
  let value : Val := fsum t.data.data / (count : Val)
  let backOp : Gradients → Gradients := fun grads =>
    let upstream := (grads.ref fresh []).data.getD 0 0
    grads.addAssign inputId inputShape
      (NdArray.fromElem inputShape (upstream / (count : Val)))
  ⟨fresh, ⟨[], [value]⟩, t.tape ++ [backOp]⟩

/-- Modelled from the spec: the closure-world backward trigger — seed the
terminal's gradient slot with `1.0` and run the recorded closures in reverse
order of recording. -/
def CTensor.backward (t : CTensor) : Gradients :=
  let g0 := Gradients.empty.addAssign t.id t.data.shape
    (NdArray.fromElem t.data.shape 1)
  t.tape.reverse.foldl (fun g f => f g) g0

/-! ## The `.npy` reader (`numpy/load.rs`) -/

/-- Byte order parsed from the first character of the header's "descr". -/
inductive Endian where
  | Big | Little | Native
deriving DecidableEq, Repr

/-- The error taxonomy of `numpy/load.rs` (`NpyError`); payloads that do not
affect control flow are dropped. -/
inductive NpyError where
  | InvalidMagicNumber | InvalidVersion | IoError | Utf8Error | PyLiteral
  | HeaderNotADict | HeaderMissingDescr | HeaderMissingFortranOrder
  | HeaderMissingShape | HeaderInvalidDescr | HeaderInvalidFortranOrder
  | HeaderInvalidShape | WrongShape | InvalidAlignment | WrongDtype
deriving DecidableEq, Repr

/-- The successfully parsed `.npy` header: the "descr" string and the shape
tuple (arbitrary-precision integers in the source, hence `Int`). -/
structure ParsedHeader where
  descr : String
  shape : List Int
deriving DecidableEq, Repr

/-- A `.npy` input whose header has been parsed: the header plus the decoded
numbers of the data section that follow it. -/
structure NpyFile where
  header : ParsedHeader
  data : List Val
deriving DecidableEq, Repr

/-- The `match &header.descr.chars().next()` of `read`: parse the byte-order
marker from the first character of "descr". -/
def parseEndian (descr : String) : Option Endian :=
  match descr.data with
  | '>' :: _ => some .Big
  | '<' :: _ => some .Little
  | '=' :: _ => some .Native
  | _ => none

/-- `read` of `numpy/load.rs`: check the target's compile-time shape against
the header (rank, then every axis), parse the byte order, check the dtype,
and only then read the numbers into the target.  The returned pair is the
`Result` and the target buffer after the call (unchanged on every error
path that precedes `read_numbers`). -/
def read (tShape : List Nat) (tDtype : String) (f : NpyFile) (t : List Val) :
    Except NpyError Unit × List Val :=
  if tShape.length ≠ f.header.shape.length then
    (.error .WrongShape, t)
  else if (tShape.zip f.header.shape).any (fun p => (p.1 : Int) != p.2) then
    (.error .WrongShape, t)
  else
    match parseEndian f.header.descr with
    | none => (.error .InvalidAlignment, t)
    | some _ =>
      if tDtype ≠ f.header.descr.drop 1 then
        (.error .WrongDtype, t)
      else if f.data.length < tShape.prod then
        (.error .IoError, t)
      else
        (.ok (), f.data.take tShape.prod)

/-! ## Observation helpers -/

/-- The tape a manager currently holds, if any. -/
def TapeHolder.getTape : TapeHolder → Option GradientTape
  | .noTape => none
  | .withTape t => some t

/-- The last record of a tape, when it is a binary one. -/
def lastBinary (t : GradientTape) : Option BinaryOp :=
  match t.operations.getLast? with
  | some (.Binary b) => some b
  | _ => none

/-- The stored derivative buffer at an index of the tape's side table. -/
def storedDeriv (t : GradientTape) (i : Nat) : NdArray :=
  t.derivatives.getD i (NdArray.zeros [])

/-- What the freshest binary record of a result's tape associates with each
parent: `(lhs id, deriv stored for lhs, rhs id, deriv stored for rhs)`. -/
def recordedAssoc (h : TapeHolder) :
    Option (Option (Nat × NdArray × Nat × NdArray)) :=
  h.getTape.map fun tp =>
    (lastBinary tp).map fun r =>
      (r.parent_grads.1.id, storedDeriv tp r.parent_derivs.1,
       r.parent_grads.2.id, storedDeriv tp r.parent_derivs.2)

/-- The operation kind of the freshest binary record of a result's tape. -/
def recordedKind (h : TapeHolder) : Option (Option OpType) :=
  h.getTape.map fun tp => (lastBinary tp).map fun r => r.op_type

/-- The operation log of a result's tape, if it has one. -/
def opsOf (h : TapeHolder) : Option (List Operation) :=
  h.getTape.map fun tp => tp.operations

/-! ## Concrete fixtures

The broadcast-outer fixture of `test_broadcast_outer_add` (`M = 3`, `N = 5`,
both operands all-ones, terminal = mean of the result), and a diamond fixture
where one tensor reaches the terminal through two operations. -/

/-- The `Tensor2D::<3, 5>::ones()` operand `a` of the broadcast-outer test. -/
def testA : CNoTape := ⟨0, ⟨[3, 5], List.replicate 15 1⟩⟩

/-- The `Tensor1D::<5>::ones()` no-tape operand `b` of the broadcast-outer
test. -/
def testB : CNoTape := ⟨1, ⟨[5], List.replicate 5 1⟩⟩

/-- `r = add_broadcast_rhs_first(a.trace(), &b)`. -/
def testR : CTensor := add_broadcast_rhs_first 3 5 2 testA.trace testB

/-- `gradients = r.mean().backward()`. -/
def testGrads : Gradients := (testR.mean 3).backward

/-- A constant operand for the diamond fixture. -/
def diamondC : NoTapeTensor := ⟨0, ⟨[1], [3]⟩⟩

/-- The tape-owning tensor `x` of the diamond fixture. -/
def diamondX : Tensor := ⟨1, ⟨[1], [5]⟩, .withTape ⟨[], []⟩⟩

/-- The diamond terminal `t = x + (c * x)`: `x` is an input of both the
`mul` record and the `add` record that sums the sibling paths into the
terminal. -/
def diamondT : Tensor := add 3 ⟨1, ⟨[1], [5]⟩⟩ (mul 2 diamondC diamondX)

/-! ## Helper lemmas -/

/-- `binary_op` fully unfolded: it appends to the side table the two
derivative buffers and to the log exactly one binary record wiring each
parent's gradient ref to its stored derivative. -/
theorem binary_op_eq (tape : GradientTape) (opt : OpType)
    (lid rid oid : Nat) (lsh rsh osh : List Nat) (d1 d2 : NdArray) :
    binary_op tape opt lid lsh rid rsh oid osh d1 d2 =
      ⟨tape.operations ++
        [.Binary ⟨opt, (⟨lid, lsh⟩, ⟨rid, rsh⟩),
          (tape.derivatives.length, tape.derivatives.length + 1),
          ⟨oid, osh⟩⟩],
       tape.derivatives ++ [d1, d2]⟩ := by
  simp [binary_op, GradientTape.store_derivative, GradientTape.add_operation,
    GradientTape.gradient_ref_for, List.append_assoc]

/-- After a `binary_op`, the freshest record associates the lhs id with the
first derivative argument and the rhs id with the second. -/
theorem recordedAssoc_binary_op (tape : GradientTape) (opt : OpType)
    (lid rid oid : Nat) (lsh rsh osh : List Nat) (d1 d2 : NdArray) :
    recordedAssoc (.withTape (binary_op tape opt lid lsh rid rsh oid osh d1 d2))
      = some (some (lid, d1, rid, d2)) := by
  rw [binary_op_eq]
  have hlast :
      (tape.operations ++
        [Operation.Binary ⟨opt, (⟨lid, lsh⟩, ⟨rid, rsh⟩),
          (tape.derivatives.length, tape.derivatives.length + 1),
          ⟨oid, osh⟩⟩]).getLast?
      = some (.Binary ⟨opt, (⟨lid, lsh⟩, ⟨rid, rsh⟩),
          (tape.derivatives.length, tape.derivatives.length + 1),
          ⟨oid, osh⟩⟩) := by simp
  simp only [recordedAssoc, TapeHolder.getTape, Option.map_some', lastBinary,
    hlast, storedDeriv]
  rw [List.getD_append_right _ _ _ _ (Nat.le_refl _),
    List.getD_append_right _ _ _ _ (Nat.le_add_right _ _)]
  simp [List.getD]

/-- After a `binary_op`, the freshest record carries the supplied kind. -/
theorem recordedKind_binary_op (tape : GradientTape) (opt : OpType)
    (lid rid oid : Nat) (lsh rsh osh : List Nat) (d1 d2 : NdArray) :
    recordedKind (.withTape (binary_op tape opt lid lsh rid rsh oid osh d1 d2))
      = some (some opt) := by
  rw [binary_op_eq]
  simp [recordedKind, TapeHolder.getTape, lastBinary]

/-! ## Claims -/

/-- C1: for `out = lhs · rhs` (both the 2D×2D and the 1D×2D entry points),
the local derivative recorded for `lhs` is `rhs`'s forward data and the one
recorded for `rhs` is `lhs`'s forward data — the two local-derivative
arguments are passed in swapped order relative to the operands. -/
theorem matmul_local_derivs_swapped :
    ∀ (M N O fresh lid : Nat) (ld : NdArray) (t : GradientTape)
      (rhs : NoTapeTensor),
      recordedAssoc ((matmat_mul M N O fresh ⟨lid, ld, .withTape t⟩ rhs).holder)
        = some (some (lid, rhs.data, rhs.id, ld)) ∧
      recordedAssoc ((vecmat_mul N O fresh ⟨lid, ld, .withTape t⟩ rhs).holder)
        = some (some (lid, rhs.data, rhs.id, ld)) := by
  intro M N O fresh lid ld t rhs
  constructor
  · exact recordedAssoc_binary_op t (.MatMul M N O) lid rhs.id fresh
      ld.shape rhs.data.shape [M, O] rhs.data ld
  · exact recordedAssoc_binary_op t (.MatMul 1 N O) lid rhs.id fresh
      ld.shape rhs.data.shape [O] rhs.data ld

/-- C10: the elementwise `mul` records, under the `Normal` kind, `rhs`'s
forward data as the local derivative for `lhs` and `lhs`'s forward data as
the local derivative for `rhs` (the product rule, same swap as matmul). -/
theorem mul_local_derivs_product_rule :
    ∀ (fresh rid : Nat) (lhs : NoTapeTensor) (rd : NdArray) (t : GradientTape),
      recordedAssoc ((mul fresh lhs ⟨rid, rd, .withTape t⟩).holder)
        = some (some (lhs.id, rd, rid, lhs.data)) ∧
      recordedKind ((mul fresh lhs ⟨rid, rd, .withTape t⟩).holder)
        = some (some .Normal) := by
  intro fresh rid lhs rd t
  constructor
  · exact recordedAssoc_binary_op t .Normal lhs.id rid fresh
      lhs.data.shape rd.shape lhs.data.shape rd lhs.data
  · exact recordedKind_binary_op t .Normal lhs.id rid fresh
      lhs.data.shape rd.shape lhs.data.shape rd lhs.data

/-- C3 counterexample: in `broadcast_add` with `M = 2`, the local derivative
recorded for the replicated lower-rank operand (`rhs`) is the `1/2`-filled
buffer, which is not an all-ones array — the all-ones derivative goes to the
full-rank `lhs` instead. -/
theorem broadcast_add_replicated_deriv_not_ones :
    recordedAssoc ((broadcast_add 2 1 2
        ⟨0, ⟨[2, 1], [1, 1]⟩, .withTape ⟨[], []⟩⟩ ⟨1, ⟨[1], [1]⟩⟩).holder)
      = some (some (0, NdArray.fromElem [2, 1] 1, 1, ⟨[1], [1/2]⟩)) ∧
    (⟨[1], [1/2]⟩ : NdArray) ≠ NdArray.fromElem [1] 1 := by
  constructor
  · exact recordedAssoc_binary_op ⟨[], []⟩ .Broadcast 0 1 2
      [2, 1] [1] [2, 1] (NdArray.fromElem [2, 1] 1) (NdArray.fromElem [1] (1/2))
  · decide

/-- C3 amended: `broadcast_add` records the all-ones local derivative for the
full-rank `lhs` and the `1/M`-filled local derivative for the replicated
lower-rank `rhs`, under the `Broadcast` kind. -/
theorem broadcast_add_recorded_derivs :
    ∀ (M N fresh lid : Nat) (ld : NdArray) (t : GradientTape)
      (rhs : NoTapeTensor),
      recordedAssoc ((broadcast_add M N fresh ⟨lid, ld, .withTape t⟩ rhs).holder)
        = some (some (lid, NdArray.fromElem ld.shape 1,
            rhs.id, NdArray.fromElem rhs.data.shape (1 / (M : Val)))) ∧
      recordedKind ((broadcast_add M N fresh ⟨lid, ld, .withTape t⟩ rhs).holder)
        = some (some .Broadcast) := by
  intro M N fresh lid ld t rhs
  constructor
  · exact recordedAssoc_binary_op t .Broadcast lid rhs.id fresh
      ld.shape rhs.data.shape [M, N]
      (NdArray.fromElem ld.shape 1) (NdArray.fromElem rhs.data.shape (1 / (M : Val)))
  · exact recordedKind_binary_op t .Broadcast lid rhs.id fresh
      ld.shape rhs.data.shape [M, N]
      (NdArray.fromElem ld.shape 1) (NdArray.fromElem rhs.data.shape (1 / (M : Val)))

/-- C2 counterexample: in the broadcast-outer fixture the no-tape operand
`b` does receive a materialized gradient entry, and the gradient-mapping
lookup for its identifier is not an all-zero buffer. -/
theorem no_tape_operand_receives_gradient :
    testGrads.hasEntry testB.id = true ∧
    testGrads.ref testB.id [5] ≠ NdArray.zeros [5] := by
  decide

/-- C2 amended: a binary operation registers a gradient-slot reference for
the no-tape operand too, and the backward pass accumulates a (generally
nonzero) gradient for its identifier — in the broadcast-outer fixture the
lookup for `b` returns the `1/5`-filled buffer; an all-zero buffer of the
requested shape is returned exactly for identifiers with no materialized
entry. -/
theorem no_tape_operand_gradient_lookup :
    (∀ (tape : GradientTape) (opt : OpType) (lid rid oid : Nat)
       (lsh rsh osh : List Nat) (d1 d2 : NdArray),
       (lastBinary (binary_op tape opt lid lsh rid rsh oid osh d1 d2)).map
           (fun r => r.parent_grads.2) = some ⟨rid, rsh⟩) ∧
    testGrads.ref testB.id [5] = ⟨[5], List.replicate 5 (1/5)⟩ ∧
    (∀ (g : Gradients) (id : Nat) (shape : List Nat),
       g id = none → g.ref id shape = NdArray.zeros shape) := by
  refine ⟨?_, by decide, ?_⟩
  · intro tape opt lid rid oid lsh rsh osh d1 d2
    rw [binary_op_eq]
    simp [lastBinary]
  · intro g id shape h
    simp [Gradients.ref, h]

/-- C2 witness: the lookup clause applied at the empty mapping. -/
theorem no_tape_operand_gradient_lookup_w :
    Gradients.empty.ref 7 [2] = NdArray.zeros [2] :=
  no_tape_operand_gradient_lookup.2.2 Gradients.empty 7 [2] rfl

/-- C4: in the broadcast-outer fixture (`M = 3`, `N = 5`, all-ones operands)
the forward result is all-twos, and the gradient of the mean of the result
with respect to `b` has every entry exactly `1/5` (= 0.2); the gradient for
`a` has every entry `1/15`. -/
theorem broadcast_outer_fixture_values :
    testR.data = ⟨[3, 5], List.replicate 15 2⟩ ∧
    testGrads.ref testB.id [5] = ⟨[5], List.replicate 5 (1/5)⟩ ∧
    testGrads.ref testA.id [3, 5] = ⟨[3, 5], List.replicate 15 (1/15)⟩ := by
  decide

/-- C5: `add_assign` on a gradient slot adds the contribution to whatever
the slot already holds (never overwrites), and in the diamond fixture
`t = x + (c * x)` the accumulated gradient of `x` equals the sum of the
contributions of its two paths (`1` via the direct `add` parent, `3` via the
`mul` parent). -/
theorem gradient_accumulation_additive :
    (∀ (g : Gradients) (id : Nat) (shape : List Nat) (v : NdArray),
       (g.addAssign id shape v).ref id shape
         = NdArray.zipWith (· + ·) (g.ref id shape) v) ∧
    (diamondT.holder.getTape).map
        (fun tp => (tp.backward 3 [1]).ref diamondX.id [1]) = some ⟨[1], [4]⟩ ∧
    NdArray.zipWith (· + ·)
        (parentContribution .Normal false (NdArray.fromElem [1] 1)
          (NdArray.fromElem [1] 1))
        (parentContribution .Normal true (NdArray.fromElem [1] 1) diamondC.data)
      = ⟨[1], [4]⟩ := by
  refine ⟨?_, by decide, by decide⟩
  intro g id shape v
  simp [Gradients.addAssign, Gradients.ref]

/-- C6: the tape-less operand position of every binary entry point is typed
`NoTape` and thus cannot own a tape, so no call has two tape-owning
operands; with the generic operand tape-less the call is tape-less too. -/
theorem binary_ops_single_tape_owner :
    (∀ b : NoTapeTensor, b.holder = .noTape) ∧
    (∀ (a : Tensor) (b : NoTapeTensor),
      ((if a.holder.owns then 1 else 0) + (if b.holder.owns then 1 else 0) : Nat)
        ≤ 1) ∧
    (∀ M N O fresh lid (ld : NdArray) (rhs : NoTapeTensor),
      (matmat_mul M N O fresh ⟨lid, ld, .noTape⟩ rhs).holder = .noTape) ∧
    (∀ N O fresh lid (ld : NdArray) (rhs : NoTapeTensor),
      (vecmat_mul N O fresh ⟨lid, ld, .noTape⟩ rhs).holder = .noTape) ∧
    (∀ M N fresh lid (ld : NdArray) (rhs : NoTapeTensor),
      (broadcast_add M N fresh ⟨lid, ld, .noTape⟩ rhs).holder = .noTape) ∧
    (∀ fresh rid (lhs : NoTapeTensor) (rd : NdArray),
      (add fresh lhs ⟨rid, rd, .noTape⟩).holder = .noTape) ∧
    (∀ fresh rid (lhs : NoTapeTensor) (rd : NdArray),
      (sub fresh lhs ⟨rid, rd, .noTape⟩).holder = .noTape) ∧
    (∀ fresh rid (lhs : NoTapeTensor) (rd : NdArray),
      (mul fresh lhs ⟨rid, rd, .noTape⟩).holder = .noTape) := by
  refine ⟨fun b => rfl, fun a b => ?_, fun _ _ _ _ _ _ _ => rfl,
    fun _ _ _ _ _ _ => rfl, fun _ _ _ _ _ _ => rfl,
    fun _ _ _ _ => rfl, fun _ _ _ _ => rfl, fun _ _ _ _ => rfl⟩
  cases a.holder <;> simp [NoTapeTensor.holder, TapeHolder.owns]

/-- C7: every binary entry point moves the single operand's tape into the
result (the result's manager holds that very tape, extended by the one new
record); with no tape the result is tape-less; and the forward data of the
result never depends on the tape manager (pure forward evaluation matches
the tape-carrying case). -/
theorem tape_moved_never_copied :
    (∀ M N O fresh lid (ld : NdArray) (t : GradientTape) (rhs : NoTapeTensor),
      (matmat_mul M N O fresh ⟨lid, ld, .withTape t⟩ rhs).holder
        = .withTape (binary_op t (.MatMul M N O) lid ld.shape rhs.id
            rhs.data.shape fresh [M, O] rhs.data ld)) ∧
    (∀ M N O fresh lid (ld : NdArray) (rhs : NoTapeTensor),
      (matmat_mul M N O fresh ⟨lid, ld, .noTape⟩ rhs).holder = .noTape) ∧
    (∀ M N O fresh lid (ld : NdArray) (rhs : NoTapeTensor) (h h' : TapeHolder),
      (matmat_mul M N O fresh ⟨lid, ld, h⟩ rhs).data
        = (matmat_mul M N O fresh ⟨lid, ld, h'⟩ rhs).data) ∧
    (∀ N O fresh lid (ld : NdArray) (t : GradientTape) (rhs : NoTapeTensor),
      (vecmat_mul N O fresh ⟨lid, ld, .withTape t⟩ rhs).holder
        = .withTape (binary_op t (.MatMul 1 N O) lid ld.shape rhs.id
            rhs.data.shape fresh [O] rhs.data ld)) ∧
    (∀ N O fresh lid (ld : NdArray) (rhs : NoTapeTensor),
      (vecmat_mul N O fresh ⟨lid, ld, .noTape⟩ rhs).holder = .noTape) ∧
    (∀ N O fresh lid (ld : NdArray) (rhs : NoTapeTensor) (h h' : TapeHolder),
      (vecmat_mul N O fresh ⟨lid, ld, h⟩ rhs).data
        = (vecmat_mul N O fresh ⟨lid, ld, h'⟩ rhs).data) ∧
    (∀ M N fresh lid (ld : NdArray) (t : GradientTape) (rhs : NoTapeTensor),
      (broadcast_add M N fresh ⟨lid, ld, .withTape t⟩ rhs).holder
        = .withTape (binary_op t .Broadcast lid ld.shape rhs.id
            rhs.data.shape fresh [M, N] (NdArray.fromElem ld.shape 1)
            (NdArray.fromElem rhs.data.shape (1 / (M : Val))))) ∧
    (∀ M N fresh lid (ld : NdArray) (rhs : NoTapeTensor),
      (broadcast_add M N fresh ⟨lid, ld, .noTape⟩ rhs).holder = .noTape) ∧
    (∀ M N fresh lid (ld : NdArray) (rhs : NoTapeTensor) (h h' : TapeHolder),
      (broadcast_add M N fresh ⟨lid, ld, h⟩ rhs).data
        = (broadcast_add M N fresh ⟨lid, ld, h'⟩ rhs).data) ∧
    (∀ fresh rid (lhs : NoTapeTensor) (rd : NdArray) (t : GradientTape),
      (add fresh lhs ⟨rid, rd, .withTape t⟩).holder
        = .withTape (binary_op t .Normal lhs.id lhs.data.shape rid rd.shape
            fresh lhs.data.shape (NdArray.fromElem lhs.data.shape 1)
            (NdArray.fromElem rd.shape 1))) ∧
    (∀ fresh rid (lhs : NoTapeTensor) (rd : NdArray),
      (add fresh lhs ⟨rid, rd, .noTape⟩).holder = .noTape) ∧
    (∀ fresh rid (lhs : NoTapeTensor) (rd : NdArray) (h h' : TapeHolder),
      (add fresh lhs ⟨rid, rd, h⟩).data = (add fresh lhs ⟨rid, rd, h'⟩).data) ∧
    (∀ fresh rid (lhs : NoTapeTensor) (rd : NdArray) (t : GradientTape),
      (sub fresh lhs ⟨rid, rd, .withTape t⟩).holder
        = .withTape (binary_op t .Normal lhs.id lhs.data.shape rid rd.shape
            fresh lhs.data.shape (NdArray.fromElem lhs.data.shape 1)
            (NdArray.fromElem rd.shape (-1)))) ∧
    (∀ fresh rid (lhs : NoTapeTensor) (rd : NdArray),
      (sub fresh lhs ⟨rid, rd, .noTape⟩).holder = .noTape) ∧
    (∀ fresh rid (lhs : NoTapeTensor) (rd : NdArray) (h h' : TapeHolder),
      (sub fresh lhs ⟨rid, rd, h⟩).data = (sub fresh lhs ⟨rid, rd, h'⟩).data) ∧
    (∀ fresh rid (lhs : NoTapeTensor) (rd : NdArray) (t : GradientTape),
      (mul fresh lhs ⟨rid, rd, .withTape t⟩).holder
        = .withTape (binary_op t .Normal lhs.id lhs.data.shape rid rd.shape
            fresh lhs.data.shape rd lhs.data)) ∧
    (∀ fresh rid (lhs : NoTapeTensor) (rd : NdArray),
      (mul fresh lhs ⟨rid, rd, .noTape⟩).holder = .noTape) ∧
    (∀ fresh rid (lhs : NoTapeTensor) (rd : NdArray) (h h' : TapeHolder),
      (mul fresh lhs ⟨rid, rd, h⟩).data = (mul fresh lhs ⟨rid, rd, h'⟩).data) :=
  ⟨fun _ _ _ _ _ _ _ _ => rfl, fun _ _ _ _ _ _ _ => rfl,
   fun _ _ _ _ _ _ _ _ _ => rfl,
   fun _ _ _ _ _ _ _ => rfl, fun _ _ _ _ _ _ => rfl,
   fun _ _ _ _ _ _ _ _ => rfl,
   fun _ _ _ _ _ _ _ => rfl, fun _ _ _ _ _ _ => rfl,
   fun _ _ _ _ _ _ _ _ => rfl,
   fun _ _ _ _ _ => rfl, fun _ _ _ _ => rfl, fun _ _ _ _ _ _ => rfl,
   fun _ _ _ _ _ => rfl, fun _ _ _ _ => rfl, fun _ _ _ _ _ _ => rfl,
   fun _ _ _ _ _ => rfl, fun _ _ _ _ => rfl, fun _ _ _ _ _ _ => rfl⟩

/-- `binary_op` leaves the operation log's prefix intact and wraps the new
record in a tape whose manager reports it. -/
theorem opsOf_binary_op (tape : GradientTape) (opt : OpType)
    (lid rid oid : Nat) (lsh rsh osh : List Nat) (d1 d2 : NdArray) :
    opsOf (.withTape (binary_op tape opt lid lsh rid rsh oid osh d1 d2))
      = some (tape.operations ++
          [.Binary ⟨opt, (⟨lid, lsh⟩, ⟨rid, rsh⟩),
            (tape.derivatives.length, tape.derivatives.length + 1),
            ⟨oid, osh⟩⟩]) := by
  rw [binary_op_eq]
  rfl

/-- C8: a binary operation appends exactly one Operation Record — the log
after the call is the old log plus one record, every prior record is still
present unchanged in its original position (the old log is a prefix), and
each tape-owning entry point's result log extends the operand's log by one
record. -/
theorem tape_append_only :
    (∀ (tape : GradientTape) (opt : OpType) (lid rid oid : Nat)
       (lsh rsh osh : List Nat) (d1 d2 : NdArray),
       (binary_op tape opt lid lsh rid rsh oid osh d1 d2).operations
         = tape.operations ++
             [.Binary ⟨opt, (⟨lid, lsh⟩, ⟨rid, rsh⟩),
               (tape.derivatives.length, tape.derivatives.length + 1),
               ⟨oid, osh⟩⟩] ∧
       (binary_op tape opt lid lsh rid rsh oid osh d1 d2).operations.take
           tape.operations.length = tape.operations ∧
       (binary_op tape opt lid lsh rid rsh oid osh d1 d2).operations.length
         = tape.operations.length + 1) ∧
    (∀ M N O fresh lid (ld : NdArray) (t : GradientTape) (rhs : NoTapeTensor),
      ∃ r, opsOf ((matmat_mul M N O fresh ⟨lid, ld, .withTape t⟩ rhs).holder)
        = some (t.operations ++ [r])) ∧
    (∀ N O fresh lid (ld : NdArray) (t : GradientTape) (rhs : NoTapeTensor),
      ∃ r, opsOf ((vecmat_mul N O fresh ⟨lid, ld, .withTape t⟩ rhs).holder)
        = some (t.operations ++ [r])) ∧
    (∀ M N fresh lid (ld : NdArray) (t : GradientTape) (rhs : NoTapeTensor),
      ∃ r, opsOf ((broadcast_add M N fresh ⟨lid, ld, .withTape t⟩ rhs).holder)
        = some (t.operations ++ [r])) ∧
    (∀ fresh rid (lhs : NoTapeTensor) (rd : NdArray) (t : GradientTape),
      ∃ r, opsOf ((add fresh lhs ⟨rid, rd, .withTape t⟩).holder)
        = some (t.operations ++ [r])) ∧
    (∀ fresh rid (lhs : NoTapeTensor) (rd : NdArray) (t : GradientTape),
      ∃ r, opsOf ((sub fresh lhs ⟨rid, rd, .withTape t⟩).holder)
        = some (t.operations ++ [r])) ∧
    (∀ fresh rid (lhs : NoTapeTensor) (rd : NdArray) (t : GradientTape),
      ∃ r, opsOf ((mul fresh lhs ⟨rid, rd, .withTape t⟩).holder)
        = some (t.operations ++ [r])) := by
  refine ⟨?_, ?_, ?_, ?_, ?_, ?_, ?_⟩
  · intro tape opt lid rid oid lsh rsh osh d1 d2
    rw [binary_op_eq]
    exact ⟨rfl, List.take_left _ _, by simp⟩
  · intro M N O fresh lid ld t rhs
    exact ⟨_, opsOf_binary_op t (.MatMul M N O) lid rhs.id fresh
      ld.shape rhs.data.shape [M, O] rhs.data ld⟩
  · intro N O fresh lid ld t rhs
    exact ⟨_, opsOf_binary_op t (.MatMul 1 N O) lid rhs.id fresh
      ld.shape rhs.data.shape [O] rhs.data ld⟩
  · intro M N fresh lid ld t rhs
    exact ⟨_, opsOf_binary_op t .Broadcast lid rhs.id fresh
      ld.shape rhs.data.shape [M, N] (NdArray.fromElem ld.shape 1)
      (NdArray.fromElem rhs.data.shape (1 / (M : Val)))⟩
  · intro fresh rid lhs rd t
    exact ⟨_, opsOf_binary_op t .Normal lhs.id rid fresh
      lhs.data.shape rd.shape lhs.data.shape
      (NdArray.fromElem lhs.data.shape 1) (NdArray.fromElem rd.shape 1)⟩
  · intro fresh rid lhs rd t
    exact ⟨_, opsOf_binary_op t .Normal lhs.id rid fresh
      lhs.data.shape rd.shape lhs.data.shape
      (NdArray.fromElem lhs.data.shape 1) (NdArray.fromElem rd.shape (-1))⟩
  · intro fresh rid lhs rd t
    exact ⟨_, opsOf_binary_op t .Normal lhs.id rid fresh
      lhs.data.shape rd.shape lhs.data.shape rd lhs.data⟩

/-- C9: when the parsed header's shape differs from the target's
compile-time shape in rank or in any per-axis extent, `read` returns the
`WrongShape` error and the target buffer is returned unchanged — for every
data section, so no data byte influences the outcome. -/
theorem read_rejects_shape_mismatch :
    ∀ (tShape : List Nat) (dt : String) (hd : ParsedHeader) (dat t : List Val),
      (tShape.length ≠ hd.shape.length ∨
        ∃ p ∈ tShape.zip hd.shape, (p.1 : Int) ≠ p.2) →
      read tShape dt ⟨hd, dat⟩ t = (.error .WrongShape, t) := by
  intro tShape dt hd dat t h
  by_cases hr : tShape.length = hd.shape.length
  · rcases h with h | ⟨p, hp, hne⟩
    · exact absurd hr h
    · simp only [read]
      rw [if_neg (not_not_intro hr), if_pos]
      exact List.any_eq_true.mpr ⟨p, hp, by simpa [bne_iff_ne] using hne⟩
  · simp only [read]
    rw [if_pos hr]

/-- C9 witness: a rank-1 target of extent 2 against a header of extent 3. -/
theorem read_rejects_shape_mismatch_w :
    read [2] "f4" ⟨⟨"<f4", [3]⟩, [1, 2, 3]⟩ [0, 0]
      = (.error .WrongShape, [0, 0]) :=
  read_rejects_shape_mismatch [2] "f4" ⟨"<f4", [3]⟩ [1, 2, 3] [0, 0]
    (Or.inr (by decide))

end Dfdx
